import Mathlib

/-!
Verification of the oracleAI dependency-graph visualization core.

The definitions below are a shallow embedding of the interactive graph
component (`frontend/src/components/Graph3D.vue`) and of the application
shell (`frontend/src/App.vue`).  Nodes and links are kept in ordered lists;
link endpoints are node indices into the node list, which models JavaScript
object identity (two endpoints are identity-equal exactly when they are the
same index).  Opacities and confidences are rational numbers; the decimal
constants of the source (0.1, 0.2, 0.3, 0.5, 0.8) are written with `mkRat`
so that they evaluate by kernel reduction.  Fallible remote calls are
modelled by passing the outcome of the request explicitly, and user-visible
side effects (issued fetches, alerts, camera moves, file saves) are
returned as an explicit effect list.
-/

/-- A graph node as held in `graphData.value.nodes`.  `highlighted` and
`opacity` model the transient render attributes `__highlighted` and
`__opacity` (absent attributes start at their reset values). -/
structure NodeR where
  id : Nat
  name : String
  type : String
  confidence : Option ℚ
  highlighted : Bool := false
  opacity : ℚ := 1
deriving DecidableEq, Repr

/-- A graph link as held in `graphData.value.links`.  `source` and `target`
are indices into the node list (JavaScript object identity). -/
structure LinkR where
  source : Nat
  target : Nat
  type : String
  confidence : Option ℚ
  highlighted : Bool := false
  opacity : ℚ := 1
deriving DecidableEq, Repr

/-- The contents of the GraphDataStore (`graphData.value`). -/
structure GraphData where
  nodes : List NodeR
  links : List LinkR
deriving DecidableEq, Repr

/-- Default node used with `List.getD`. -/
def dNode : NodeR := { id := 0, name := "", type := "", confidence := none }

/-- Default link used with `List.getD`. -/
def dLink : LinkR := { source := 0, target := 0, type := "", confidence := none }

/-- JavaScript `a >= b` where `a` may be `undefined`:
`undefined >= b` is `false` for every `b` (NaN comparison). -/
def jsGe (c : Option ℚ) (t : ℚ) : Bool :=
  match c with
  | some x => t ≤ x
  | none => false

/-- JavaScript `x || d` for an optional number `x`: `undefined` and `0` are
both falsy, so either one yields the default `d`. -/
def jsOr (c : Option ℚ) (d : ℚ) : ℚ :=
  match c with
  | some x => if x = 0 then d else x
  | none => d

/-- Replace the element at index `i` by `f` applied to it (in-place object
mutation of a list element); out-of-range indices leave the list unchanged. -/
def modifyAt : List α → Nat → (α → α) → List α
  | [], _, _ => []
  | a :: as, 0, f => f a :: as
  | a :: as, Nat.succ i, f => a :: modifyAt as i f

/-- `getLinkWidth` from Graph3D.vue: `(link.confidence || 0.5) * 3`. -/
def getLinkWidth (l : LinkR) : ℚ :=
  jsOr l.confidence (mkRat 5 10) * 3

/-- The endpoint of `l` opposite the selected node, as computed inside
`highlightNode`: `l.source === node ? l.target : l.source`. -/
def otherEnd (sel : Nat) (l : LinkR) : Nat :=
  if l.source = sel then l.target else l.source

/-- The node update applied to the other endpoint of a connected link
(`connectedNode.__highlighted = true; connectedNode.__opacity = 0.8`). -/
def nbrUpd (n : NodeR) : NodeR :=
  { n with highlighted := true, opacity := mkRat 8 10 }

/-- The link update applied to a connected link
(`l.__highlighted = true; l.__opacity = 1`). -/
def linkOn (l : LinkR) : LinkR :=
  { l with highlighted := true, opacity := 1 }

/-- One iteration of the `connectedLinks.forEach` loop of `highlightNode`,
acting on the current node list and on the links emitted so far.  A link
touching the selected node is switched on and its other endpoint is updated;
any other link is kept as it stands. -/
def hlStep (sel : Nat) (acc : List NodeR × List LinkR) (l : LinkR) :
    List NodeR × List LinkR :=
  if l.source = sel ∨ l.target = sel then
    (modifyAt acc.1 (otherEnd sel l) nbrUpd, acc.2 ++ [linkOn l])
  else
    (acc.1, acc.2 ++ [l])

/-- The node reset at the top of `highlightNode`
(`n.__highlighted = false; n.__opacity = 0.2`). -/
def resetN (n : NodeR) : NodeR :=
  { n with highlighted := false, opacity := mkRat 2 10 }

/-- The link reset at the top of `highlightNode`
(`l.__highlighted = false; l.__opacity = 0.1`). -/
def resetL (l : LinkR) : LinkR :=
  { l with highlighted := false, opacity := mkRat 1 10 }

/-- The update of the selected node itself
(`node.__highlighted = true; node.__opacity = 1`). -/
def selUpd (n : NodeR) : NodeR :=
  { n with highlighted := true, opacity := 1 }

/-- `highlightNode` from Graph3D.vue, with the selected node given by its
index `sel`: reset every node to `__opacity = 0.2` and every link to
`__opacity = 0.1` (both unhighlighted), set the selected node to
`__opacity = 1, __highlighted = true`, then walk the links and switch on
every link identity-equal-connected to the selection, raising its other
endpoint to `__opacity = 0.8`. -/
def highlightNode (g : GraphData) (sel : Nat) : GraphData :=
  let nodes2 := modifyAt (g.nodes.map resetN) sel selUpd
  let r := (g.links.map resetL).foldl (hlStep sel) (nodes2, [])
  { nodes := r.1, links := r.2 }

/-- The node reset of `resetHighlight`
(`n.__highlighted = false; n.__opacity = 1`). -/
def clearN (n : NodeR) : NodeR :=
  { n with highlighted := false, opacity := 1 }

/-- The link reset of `resetHighlight`
(`l.__highlighted = false; l.__opacity = 1`). -/
def clearL (l : LinkR) : LinkR :=
  { l with highlighted := false, opacity := 1 }

/-- `resetHighlight` from Graph3D.vue: every node and link back to
`__opacity = 1, __highlighted = false`. -/
def resetHighlight (g : GraphData) : GraphData :=
  { nodes := g.nodes.map clearN, links := g.links.map clearL }

/-- The reactive state of the Graph3D component: search box text, selected
node (the detail-panel reference), the GraphDataStore contents, the two
slider values and the current view variant.  The render adapter
(`graph.value`) reads `graphData` by reference and is not part of the
observable state. -/
structure G3State where
  searchTerm : String
  selectedNode : Option NodeR
  graphData : GraphData
  depth : Nat
  confidenceThreshold : ℚ
  is3D : Bool
deriving DecidableEq, Repr

/-- `handleNodeClick` from Graph3D.vue for the node at index `i`:
`selectedNode.value = node; highlightNode(node)`.  The stored selection is
the clicked node as it stands after the highlight pass (the component holds
the same mutated object). -/
def handleNodeClick (st : G3State) (i : Nat) : G3State :=
  let g := highlightNode st.graphData i
  { st with selectedNode := g.nodes.get? i, graphData := g }

/-- `clearSelection` from Graph3D.vue:
`selectedNode.value = null; resetHighlight()`. -/
def clearSelection (st : G3State) : G3State :=
  { st with selectedNode := none, graphData := resetHighlight st.graphData }

/-- Observable side effects of the interaction handlers. -/
inductive Effect where
  | fetchCallChain (name : String) (depth : Nat) (conf : ℚ)
  | fetchSearch (keyword : String)
  | alertMsg (msg : String)
  | centerCamera (nodeIdx : Nat)
  | saveFile (filename : String)
deriving DecidableEq, Repr

/-- Outcome of a `fetch` of the call-chain endpoint as the component
observes it: the promise was rejected, or it resolved with a status
(`response.ok`) and a body; `none` stands for a body that is not valid
JSON, so that `response.json()` throws. -/
inductive FetchResult where
  | rejected
  | resolved (ok : Bool) (body : Option GraphData)
deriving DecidableEq, Repr

/-- The per-link opacity update of `confidenceChanged`
(`link.__opacity = link.confidence >= threshold ? 1 : 0.3`). -/
def confUpd (t : ℚ) (l : LinkR) : LinkR :=
  { l with opacity := if jsGe l.confidence t then 1 else mkRat 3 10 }

/-- `confidenceChanged` from Graph3D.vue: for every link,
`link.__opacity = link.confidence >= confidenceThreshold.value ? 1 : 0.3`;
nodes are untouched, no request is issued (`updateNodesAppearance` only
re-installs the render accessors). -/
def confidenceChanged (st : G3State) : G3State × List Effect :=
  ({ st with graphData := { st.graphData with
      links := st.graphData.links.map (confUpd st.confidenceThreshold) } }, [])

def loadChainFailMsg : String := "加载调用链失败，请重试"

def searchFailMsg : String := "搜索失败，请重试"

def notFoundMsg : String := "未找到匹配的节点"

def exportFailMsg : String := "导出图像失败，请重试"

/-- `loadCallChain` from Graph3D.vue.  The issued request carries the
current `depth` and `confidenceThreshold` slider values.  The source never
consults `response.ok`; whenever the body parses as a graph payload it is
installed wholesale (`loadData(data)`), the node named `nodeName` is looked
up in the fresh data and, when found, selected and highlighted.  A rejected
promise or a non-JSON body lands in the `catch` branch: an alert and no
store change. -/
def loadCallChain (st : G3State) (nodeName : String) (resp : FetchResult) :
    G3State × List Effect :=
  let req := Effect.fetchCallChain nodeName st.depth st.confidenceThreshold
  match resp with
  | .rejected => (st, [req, .alertMsg loadChainFailMsg])
  | .resolved _ none => (st, [req, .alertMsg loadChainFailMsg])
  | .resolved _ (some g) =>
      let st1 := { st with graphData := g }
      match g.nodes.findIdx? (fun n => n.name == nodeName) with
      | some i => (handleNodeClick st1 i, [req])
      | none => (st1, [req])

/-- `depthChanged` from Graph3D.vue: only when a node is selected, reload
the call chain for `selectedNode.value.name` (the slider's `v-model` has
already stored the new depth in the state). -/
def depthChanged (st : G3State) (resp : FetchResult) : G3State × List Effect :=
  match st.selectedNode with
  | some n => loadCallChain st n.name resp
  | none => (st, [])

/-- Outcome of the search request as `searchNode` observes it: rejection
(network error or a body on which `response.json()` throws), or a resolved
procedure-name list; a JSON body without a `procedures` array behaves like
the empty list (`data.procedures && data.procedures.length > 0`). -/
inductive SearchResult where
  | rejected
  | resolved (procedures : List String)
deriving DecidableEq, Repr

/-- `searchNode` from Graph3D.vue.  An empty search box does nothing.  On a
resolved response only `data.procedures[0]` is consulted: when a node of
that name is in the current graph it is clicked and centered
(`centerAt`/`cameraPosition`), otherwise its call chain is loaded (the
outcome of that nested request is `cresp`).  An empty result list alerts
"not found"; a rejection alerts "search failed". -/
def searchNode (st : G3State) (sresp : SearchResult) (cresp : FetchResult) :
    G3State × List Effect :=
  if st.searchTerm = "" then (st, [])
  else
    let req := Effect.fetchSearch st.searchTerm
    match sresp with
    | .rejected => (st, [req, .alertMsg searchFailMsg])
    | .resolved [] => (st, [req, .alertMsg notFoundMsg])
    | .resolved (pname :: _) =>
        match st.graphData.nodes.findIdx? (fun n => n.name == pname) with
        | some i => (handleNodeClick st i, [req, .centerCamera i])
        | none =>
            let r := loadCallChain st pname cresp
            (r.1, req :: r.2)

/-- `toggleView` from Graph3D.vue: flip `is3D`, keep the current
`graphData` aside, destroy and re-create the render adapter (render-only
lifecycle, not part of the observable state) and re-install the very same
data via `loadData(currentData)`. -/
def toggleView (st : G3State) : G3State :=
  let is3D' := !st.is3D
  let currentData := st.graphData
  { st with is3D := is3D', graphData := currentData }

/-- Environment `exportImage` runs in: the container ref may be gone
(`querySelector` on `null` throws), the container may hold no canvas, or a
canvas is present and `toBlob` delivers a pixel buffer. -/
inductive ExportEnv where
  | noContainer
  | noCanvas
  | hasCanvas
deriving DecidableEq, Repr

def exportFileHead : String := "oracle-sp-graph-"

def exportFileTail : String := ".png"

/-- `exportImage` from Graph3D.vue.  With no canvas the function hits
`if (!canvas) return;` and does nothing at all; a thrown error is caught
and alerted; otherwise the canvas blob is offered via `saveAs` under
`oracle-sp-graph-<date>.png`.  The component state is never touched. -/
def exportImage (st : G3State) (env : ExportEnv) (today : String) :
    G3State × List Effect :=
  match env with
  | .noContainer => (st, [.alertMsg exportFailMsg])
  | .noCanvas => (st, [])
  | .hasCanvas => (st, [.saveFile (exportFileHead ++ today ++ exportFileTail)])

/-- JavaScript `Array.prototype.findIndex` on the recent-procedures list:
index of the first entry with the given name, `-1` when there is none. -/
def jsFindIndex (l : List String) (pname : String) : Int :=
  match l.findIdx? (fun p => p == pname) with
  | some i => (i : Int)
  | none => -1

/-- JavaScript `arr.splice(start, 1)` (drop one element), including the
negative-index rule: a negative `start` counts from the end, clamped at 0.
In particular `arr.splice(-1, 1)` removes the LAST element of a non-empty
array. -/
def jsSpliceRemove1 (l : List String) (start : Int) : List String :=
  let len : Int := l.length
  let actual : Nat := (if start < 0 then max (len + start) 0 else min start len).toNat
  l.take actual ++ l.drop (actual + 1)

/-- `addToRecentProcedures` from App.vue, transcribed literally.  The
source contains the `splice(index, 1)` statement twice: once guarded by
`if (index !== -1)` and once unconditionally (the line repeated after the
`(continued)` marker), before the new name is unshifted and the list capped
at 10. -/
def addToRecentProcedures (list : List String) (pname : String) : List String :=
  let index := jsFindIndex list pname
  let l1 := if index ≠ -1 then jsSpliceRemove1 list index else list
  let l2 := jsSpliceRemove1 l1 index
  let l3 := pname :: l2
  if l3.length > 10 then l3.take 10 else l3

/-! ### Concrete fixtures used by witnesses and counterexamples -/

def spA : String := "SP_A"

def spB : String := "SP_B"

def spX : String := "SP_X"

def tOrder : String := "T_ORDER"

def spD : String := "SP_D"

def nA : NodeR := { id := 1, name := spA, type := "SP", confidence := some (mkRat 9 10) }

def nB : NodeR := { id := 2, name := spB, type := "SP", confidence := none }

def nT : NodeR := { id := 3, name := tOrder, type := "TABLE", confidence := none }

def nD : NodeR := { id := 4, name := spD, type := "SP", confidence := none }

/-- A well-formed sample graph: `SP_A` calls `SP_B`, `SP_A` and `SP_B`
reference `T_ORDER`, and `SP_D` is isolated. -/
def gW : GraphData :=
  { nodes := [nA, nB, nT, nD],
    links := [{ source := 0, target := 1, type := "CALLS", confidence := some (mkRat 9 10) },
              { source := 0, target := 2, type := "REFERENCES", confidence := some (mkRat 7 10) },
              { source := 1, target := 2, type := "REFERENCES", confidence := some (mkRat 3 10) }] }

/-- A one-node graph whose single link is a self-loop on the selected node. -/
def gSelf : GraphData :=
  { nodes := [nA],
    links := [{ source := 0, target := 0, type := "CALLS", confidence := some (mkRat 9 10) }] }

/-- A fresh call-chain payload that does not contain `SP_A`/`SP_X`. -/
def gNew : GraphData := { nodes := [nB], links := [] }

/-- Base component state: search text `SP_A`, nothing selected, store `gW`,
default slider values (`depth = 3`, threshold `0.5`), 3D view. -/
def stBase : G3State :=
  { searchTerm := spA, selectedNode := none, graphData := gW,
    depth := 3, confidenceThreshold := mkRat 5 10, is3D := true }

/-- `stBase` with `SP_A` selected. -/
def stSel : G3State := { stBase with selectedNode := some nA }

/-- A link whose confidence is present and equal to 0. -/
def lZero : LinkR :=
  { source := 0, target := 1, type := "REFERENCES", confidence := some 0 }

def today0 : String := "2026-10-12"

/-- The first link of `gW` (confidence 0.9), used as a width witness. -/
def lNine : LinkR :=
  { source := 0, target := 1, type := "CALLS", confidence := some (mkRat 9 10) }

/-- A successful call-chain response carrying `gW`. -/
def respW : FetchResult := FetchResult.resolved true (some gW)

/-- `nA` after a highlight reset, as produced by `clearSelection`. -/
def nAclear : NodeR := { nA with highlighted := false, opacity := 1 }

/-! ### General lemmas -/

theorem length_modifyAt (l : List α) (i : Nat) (f : α → α) :
    (modifyAt l i f).length = l.length := by
  induction l generalizing i with
  | nil => rfl
  | cons a as ih =>
    cases i with
    | zero => rfl
    | succ j => simp [modifyAt, ih]

theorem getD_modifyAt_self (l : List α) (i : Nat) (f : α → α) (d : α)
    (h : i < l.length) : (modifyAt l i f).getD i d = f (l.getD i d) := by
  induction l generalizing i with
  | nil => simp at h
  | cons a as ih =>
    cases i with
    | zero => rfl
    | succ j =>
      simp only [modifyAt, List.getD_cons_succ]
      exact ih j (Nat.lt_of_succ_lt_succ h)

theorem getD_modifyAt_ne (l : List α) (i j : Nat) (f : α → α) (d : α)
    (h : j ≠ i) : (modifyAt l i f).getD j d = l.getD j d := by
  induction l generalizing i j with
  | nil => rfl
  | cons a as ih =>
    cases i with
    | zero =>
      cases j with
      | zero => exact absurd rfl h
      | succ j2 => rfl
    | succ i2 =>
      cases j with
      | zero => rfl
      | succ j2 =>
        simp only [modifyAt, List.getD_cons_succ]
        exact ih i2 j2 (fun hh => h (by rw [hh]))

theorem getD_map_of_lt (f : α → β) (l : List α) (j : Nat) (da : α) (db : β)
    (h : j < l.length) : (l.map f).getD j db = f (l.getD j da) := by
  induction l generalizing j with
  | nil => simp at h
  | cons a as ih =>
    cases j with
    | zero => rfl
    | succ j2 =>
      simp only [List.map_cons, List.getD_cons_succ]
      exact ih j2 (Nat.lt_of_succ_lt_succ h)

theorem getD_mem (l : List α) (j : Nat) (d : α) (h : j < l.length) :
    l.getD j d ∈ l := by
  induction l generalizing j with
  | nil => simp at h
  | cons a as ih =>
    cases j with
    | zero => exact List.mem_cons_self a as
    | succ j2 => exact List.mem_cons_of_mem a (ih j2 (Nat.lt_of_succ_lt_succ h))

theorem map_idem (f : α → α) (hf : ∀ a, f (f a) = f a) (l : List α) :
    (l.map f).map f = l.map f := by
  induction l with
  | nil => rfl
  | cons a as ih => simp [hf, ih]

theorem three_tenths_ne_one : mkRat 3 10 ≠ 1 := by decide

theorem hlFold_fst_length (sel : Nat) (ls : List LinkR) :
    ∀ (ns : List NodeR) (acc : List LinkR),
      ((ls.foldl (hlStep sel) (ns, acc)).1).length = ns.length := by
  induction ls with
  | nil => intro ns acc; rfl
  | cons l ls ih =>
    intro ns acc
    rw [List.foldl_cons]
    by_cases hc : l.source = sel ∨ l.target = sel
    · simp only [hlStep, if_pos hc]
      rw [ih]
      exact length_modifyAt _ _ _
    · simp only [hlStep, if_neg hc]
      exact ih _ _

theorem hlFold_fst_getD (sel : Nat) (ls : List LinkR) :
    ∀ (ns : List NodeR) (acc : List LinkR) (i : Nat), i < ns.length →
      ((ls.foldl (hlStep sel) (ns, acc)).1).getD i dNode =
        if ∃ l ∈ ls, (l.source = sel ∨ l.target = sel) ∧ otherEnd sel l = i
        then nbrUpd (ns.getD i dNode) else ns.getD i dNode := by
  induction ls with
  | nil =>
    intro ns acc i hi
    simp
  | cons l ls ih =>
    intro ns acc i hi
    rw [List.foldl_cons]
    by_cases hc : l.source = sel ∨ l.target = sel
    · simp only [hlStep, if_pos hc]
      have hlen : i < (modifyAt ns (otherEnd sel l) nbrUpd).length := by
        rw [length_modifyAt]; exact hi
      by_cases hoe : otherEnd sel l = i
      · rw [ih _ _ i hlen]
        have hmod : (modifyAt ns (otherEnd sel l) nbrUpd).getD i dNode
            = nbrUpd (ns.getD i dNode) := by
          rw [hoe]; exact getD_modifyAt_self ns i nbrUpd dNode hi
        rw [hmod]
        have hex : ∃ x ∈ l :: ls, (x.source = sel ∨ x.target = sel) ∧ otherEnd sel x = i :=
          ⟨l, List.mem_cons_self l ls, hc, hoe⟩
        rw [if_pos hex]
        by_cases h2 : ∃ x ∈ ls, (x.source = sel ∨ x.target = sel) ∧ otherEnd sel x = i
        · rw [if_pos h2]
          rfl
        · rw [if_neg h2]
      · rw [ih _ _ i hlen]
        rw [getD_modifyAt_ne ns (otherEnd sel l) i nbrUpd dNode (fun hh => hoe hh.symm)]
        have hiff : (∃ x ∈ ls, (x.source = sel ∨ x.target = sel) ∧ otherEnd sel x = i)
            ↔ (∃ x ∈ l :: ls, (x.source = sel ∨ x.target = sel) ∧ otherEnd sel x = i) := by
          constructor
          · rintro ⟨x, hm, hx⟩; exact ⟨x, List.mem_cons_of_mem l hm, hx⟩
          · rintro ⟨x, hm, hx⟩
            rcases List.mem_cons.mp hm with rfl | hm2
            · exact absurd hx.2 hoe
            · exact ⟨x, hm2, hx⟩
        rw [if_congr hiff rfl rfl]
    · simp only [hlStep, if_neg hc]
      rw [ih _ _ i hi]
      have hiff : (∃ x ∈ ls, (x.source = sel ∨ x.target = sel) ∧ otherEnd sel x = i)
          ↔ (∃ x ∈ l :: ls, (x.source = sel ∨ x.target = sel) ∧ otherEnd sel x = i) := by
        constructor
        · rintro ⟨x, hm, hx⟩; exact ⟨x, List.mem_cons_of_mem l hm, hx⟩
        · rintro ⟨x, hm, hx⟩
          rcases List.mem_cons.mp hm with rfl | hm2
          · exact absurd hx.1 hc
          · exact ⟨x, hm2, hx⟩
      rw [if_congr hiff rfl rfl]

theorem hlFold_snd (sel : Nat) (ls : List LinkR) :
    ∀ (ns : List NodeR) (acc : List LinkR),
      (ls.foldl (hlStep sel) (ns, acc)).2 =
        acc ++ ls.map (fun l =>
          if l.source = sel ∨ l.target = sel then linkOn l else l) := by
  induction ls with
  | nil => intro ns acc; simp
  | cons l ls ih =>
    intro ns acc
    rw [List.foldl_cons]
    by_cases hc : l.source = sel ∨ l.target = sel
    · simp only [hlStep, if_pos hc]
      rw [ih]
      simp [hc]
    · simp only [hlStep, if_neg hc]
      rw [ih]
      simp [hc]

/-! ### Claims -/

/-- Claim C1 (code bug).  The persisted recent-procedures list: the claim
says three successful loads `SP_A`, `SP_B`, `SP_A` starting from the empty
list leave `[SP_A, SP_B]`, and that a load never removes unrelated entries.
The transcribed `addToRecentProcedures` contains the `splice(index, 1)`
statement a second time, unconditionally; with `index = -1` (name not yet
present) JavaScript `splice(-1, 1)` deletes the LAST entry, so the second
load drops `SP_A` and the scenario ends in `[SP_A]`, not `[SP_A, SP_B]`. -/
theorem addToRecentProcedures_scenarioC_drops_entries :
    addToRecentProcedures (addToRecentProcedures (addToRecentProcedures [] spA) spB) spA
        = [spA]
    ∧ addToRecentProcedures (addToRecentProcedures [] spA) spB = [spB]
    ∧ ([spA] : List String) ≠ [spA, spB] := by
  refine ⟨by decide, by decide, by decide⟩

/-- Claim C3 (code bug).  `loadCallChain` never consults `response.ok`: a
resolved response with a non-success status (`ok = false`) whose JSON body
parses as a graph payload replaces the GraphDataStore and surfaces no error
message, contradicting "on every failure an error is surfaced and the store
is left completely unchanged". -/
theorem loadCallChain_non_success_replaces_store :
    loadCallChain stBase spX (FetchResult.resolved false (some gNew))
      = ({ stBase with graphData := gNew },
         [Effect.fetchCallChain spX stBase.depth stBase.confidenceThreshold])
    ∧ gNew ≠ stBase.graphData := by
  constructor
  · rfl
  · decide

/-- Claim C6, counterexample.  The claim reads the width as
`confidence * 3`, with `0.5` substituted only when the confidence is
absent.  For a link with confidence present and equal to `0` the claim
gives width `0`, but `(link.confidence || 0.5) * 3` treats `0` as falsy and
yields `1.5`. -/
theorem getLinkWidth_zero_confidence_counterexample :
    getLinkWidth lZero ≠ Option.getD lZero.confidence (mkRat 5 10) * 3
    ∧ Option.getD lZero.confidence (mkRat 5 10) * 3 = 0 := by
  constructor
  · have h0 : Option.getD lZero.confidence (mkRat 5 10) * 3 = 0 := by
      simp [lZero]
    rw [h0]
    simp only [getLinkWidth, jsOr, lZero]
    rw [Rat.mkRat_eq_div]
    norm_num
  · simp [lZero]

/-- Claim C6 (corrected).  Link width is `confidence * 3` whenever the
confidence is present and nonzero; the `0.5` default applies both when the
confidence is absent and when it equals `0` (JavaScript `||` on a falsy
number). -/
theorem getLinkWidth_spec (l : LinkR) :
    (∀ c, l.confidence = some c → c ≠ 0 → getLinkWidth l = c * 3)
    ∧ (l.confidence = none → getLinkWidth l = mkRat 5 10 * 3)
    ∧ (l.confidence = some 0 → getLinkWidth l = mkRat 5 10 * 3) := by
  refine ⟨?_, ?_, ?_⟩
  · intro c hc hc0
    simp [getLinkWidth, jsOr, hc, hc0]
  · intro hc
    simp [getLinkWidth, jsOr, hc]
  · intro hc
    simp [getLinkWidth, jsOr, hc]

/-- Witness for the corrected width rule at confidence 0.9. -/
theorem getLinkWidth_spec_witness : getLinkWidth lNine = mkRat 9 10 * 3 :=
  (getLinkWidth_spec lNine).1 (mkRat 9 10) rfl (by decide)

/-- Claim C7 (confirmed).  `toggleView` keeps the very same `graphData`
reference, so one switch loses no graph data and two switches restore the
complete component state. -/
theorem toggleView_twice_preserves_store (st : G3State) :
    (toggleView st).graphData = st.graphData
    ∧ (toggleView (toggleView st)).graphData = st.graphData
    ∧ toggleView (toggleView st) = st := by
  refine ⟨rfl, rfl, ?_⟩
  cases st with
  | mk a b c d e f => simp [toggleView]

/-- Claim C9, counterexample.  With a container but no canvas,
`exportImage` hits `if (!canvas) return;`: no alert, no save, nothing —
the claim says the absence of a renderable surface is reported to the
user. -/
theorem exportImage_no_canvas_silent_counterexample :
    (exportImage stBase ExportEnv.noCanvas today0).2 = []
    ∧ (exportImage stBase ExportEnv.noCanvas today0).1 = stBase :=
  ⟨rfl, rfl⟩

/-- Claim C9 (corrected).  `exportImage` never touches the component state;
a thrown error (missing container) is alerted, a missing canvas silently
does nothing, and on success the canvas blob is saved under a name carrying
the current date. -/
theorem exportImage_spec (st : G3State) (env : ExportEnv) (today : String) :
    (exportImage st env today).1 = st
    ∧ (exportImage st ExportEnv.noCanvas today).2 = []
    ∧ (exportImage st ExportEnv.noContainer today).2 = [Effect.alertMsg exportFailMsg]
    ∧ (exportImage st ExportEnv.hasCanvas today).2
        = [Effect.saveFile (exportFileHead ++ today ++ exportFileTail)] := by
  refine ⟨?_, rfl, rfl, rfl⟩
  cases env <;> rfl

/-- Claim C2, counterexample.  With a node selected, a confidence-slider
change runs `confidenceChanged`, which issues no request at all (empty
effect list): only the depth slider triggers a fresh call-chain fetch. -/
theorem confidenceChanged_no_fetch_counterexample :
    stSel.selectedNode.isSome = true ∧ (confidenceChanged stSel).2 = [] :=
  ⟨rfl, rfl⟩

/-- Claim C2 (corrected).  With node `n` selected, a depth-slider change
fetches the call chain of `n.name` with the current (new) `depth` and
threshold; when the response body parses as a graph it replaces the store
wholesale and the first node of the same name is re-selected and
highlighted when present.  A confidence-slider change issues no fetch. -/
theorem slider_change_fetch_spec (st : G3State) (n : NodeR) (resp : FetchResult)
    (hsel : st.selectedNode = some n) :
    (depthChanged st resp).2.head?
        = some (Effect.fetchCallChain n.name st.depth st.confidenceThreshold)
    ∧ (∀ ok g, resp = FetchResult.resolved ok (some g) →
        (∀ i, g.nodes.findIdx? (fun m => m.name == n.name) = some i →
          (depthChanged st resp).1.graphData = highlightNode g i
          ∧ (depthChanged st resp).1.selectedNode = (highlightNode g i).nodes.get? i)
        ∧ (g.nodes.findIdx? (fun m => m.name == n.name) = none →
          (depthChanged st resp).1.graphData = g
          ∧ (depthChanged st resp).1.selectedNode = st.selectedNode))
    ∧ (confidenceChanged st).2 = [] := by
  have hd : depthChanged st resp = loadCallChain st n.name resp := by
    simp [depthChanged, hsel]
  refine ⟨?_, ?_, rfl⟩
  · rw [hd]
    cases resp with
    | rejected => rfl
    | resolved ok body =>
      cases body with
      | none => rfl
      | some g =>
        rcases h : g.nodes.findIdx? (fun m => m.name == n.name) with _ | i
        · simp [loadCallChain, h]
        · simp [loadCallChain, h]
  · intro ok g hresp
    subst hresp
    rw [hd]
    constructor
    · intro i hidx
      simp [loadCallChain, hidx, handleNodeClick]
    · intro hidx
      simp [loadCallChain, hidx]

/-- Witness: with `SP_A` selected, a depth change issues the fetch and a
graph response containing `SP_A` is installed and re-highlighted. -/
theorem slider_change_fetch_spec_witness :
    (depthChanged stSel respW).2.head?
        = some (Effect.fetchCallChain nA.name stSel.depth stSel.confidenceThreshold)
    ∧ (depthChanged stSel respW).1.graphData = highlightNode gW 0
    ∧ (confidenceChanged stSel).2 = [] := by
  have h := slider_change_fetch_spec stSel nA respW rfl
  exact ⟨h.1, ((h.2.1 true gW rfl).1 0 (by decide)).1, h.2.2⟩

/-- Claim C5 (confirmed).  Immediately after a confidence-slider change,
a link's opacity is `1` exactly when its confidence is at least the
threshold and `0.3` otherwise (for links carrying a confidence, as the
data model requires); the node list and the selection are untouched. -/
theorem confidenceChanged_threshold_spec (st : G3State) :
    (confidenceChanged st).1.graphData.nodes = st.graphData.nodes
    ∧ (confidenceChanged st).1.selectedNode = st.selectedNode
    ∧ ∀ j, j < st.graphData.links.length → ∀ c,
        (st.graphData.links.getD j dLink).confidence = some c →
        ((((confidenceChanged st).1.graphData.links.getD j dLink).opacity = 1)
            ↔ st.confidenceThreshold ≤ c)
        ∧ (¬ st.confidenceThreshold ≤ c →
            ((confidenceChanged st).1.graphData.links.getD j dLink).opacity
              = mkRat 3 10) := by
  refine ⟨rfl, rfl, ?_⟩
  intro j hj c hc
  have h1 : (confidenceChanged st).1.graphData.links.getD j dLink
      = confUpd st.confidenceThreshold (st.graphData.links.getD j dLink) :=
    getD_map_of_lt (confUpd st.confidenceThreshold) st.graphData.links j dLink dLink hj
  rw [h1]
  simp only [confUpd, hc]
  by_cases hle : st.confidenceThreshold ≤ c
  · constructor
    · simp [jsGe, hle]
    · intro hcon
      exact absurd hle hcon
  · constructor
    · simp [jsGe, hle, three_tenths_ne_one]
    · intro hcon
      simp [jsGe, hle]

/-- Witness: in `stBase` (threshold 0.5) the first link (confidence 0.9)
ends with opacity 1 and the nodes are unchanged. -/
theorem confidenceChanged_threshold_spec_witness :
    ((confidenceChanged stBase).1.graphData.links.getD 0 dLink).opacity = 1
    ∧ (confidenceChanged stBase).1.graphData.nodes = stBase.graphData.nodes := by
  have h := confidenceChanged_threshold_spec stBase
  exact ⟨((h.2.2 0 (by decide) (mkRat 9 10) (by decide)).1).mpr (by decide), h.1⟩

/-- Claim C8 (confirmed).  `clearSelection` is idempotent and leaves every
node and link at opacity 1, unhighlighted. -/
theorem clearSelection_idempotent (st : G3State) :
    clearSelection (clearSelection st) = clearSelection st
    ∧ (∀ n ∈ (clearSelection st).graphData.nodes, n.opacity = 1 ∧ n.highlighted = false)
    ∧ (∀ l ∈ (clearSelection st).graphData.links, l.opacity = 1 ∧ l.highlighted = false) := by
  refine ⟨?_, ?_, ?_⟩
  · have hg : resetHighlight (resetHighlight st.graphData) = resetHighlight st.graphData := by
      simp only [resetHighlight]
      rw [map_idem clearN (fun a => rfl), map_idem clearL (fun a => rfl)]
    simp only [clearSelection]
    rw [hg]
  · intro n hn
    simp only [clearSelection, resetHighlight] at hn
    obtain ⟨a, _, rfl⟩ := List.mem_map.mp hn
    exact ⟨rfl, rfl⟩
  · intro l hl
    simp only [clearSelection, resetHighlight] at hl
    obtain ⟨a, _, rfl⟩ := List.mem_map.mp hl
    exact ⟨rfl, rfl⟩

/-- Witness: clearing twice on the sample state equals clearing once, and
the cleared copy of `SP_A` is fully reset. -/
theorem clearSelection_idempotent_witness :
    clearSelection (clearSelection stBase) = clearSelection stBase
    ∧ nAclear.opacity = 1 ∧ nAclear.highlighted = false := by
  have h := clearSelection_idempotent stBase
  exact ⟨h.1, (h.2.1 nAclear (by decide)).1, (h.2.1 nAclear (by decide)).2⟩

/-- Claim C10 (confirmed).  A search resolving with two or more procedure
names behaves exactly as if only the first had been returned: the first is
selected and centered when present in the graph, otherwise its call chain
is fetched; the remaining results trigger no mutation and no request. -/
theorem searchNode_first_result_only (st : G3State)
    (hterm : ¬ st.searchTerm = "") (p q : String) (rest : List String)
    (cresp : FetchResult) :
    searchNode st (SearchResult.resolved (p :: q :: rest)) cresp
        = searchNode st (SearchResult.resolved [p]) cresp
    ∧ (∀ i, st.graphData.nodes.findIdx? (fun n => n.name == p) = some i →
        searchNode st (SearchResult.resolved (p :: q :: rest)) cresp
          = (handleNodeClick st i,
             [Effect.fetchSearch st.searchTerm, Effect.centerCamera i]))
    ∧ (st.graphData.nodes.findIdx? (fun n => n.name == p) = none →
        searchNode st (SearchResult.resolved (p :: q :: rest)) cresp
          = ((loadCallChain st p cresp).1,
             Effect.fetchSearch st.searchTerm :: (loadCallChain st p cresp).2)) := by
  refine ⟨rfl, ?_, ?_⟩
  · intro i hidx
    simp [searchNode, hterm, hidx]
  · intro hidx
    simp [searchNode, hterm, hidx]

/-- Witness: searching `SP_A` with two results selects and centers node 0
only. -/
theorem searchNode_first_result_only_witness :
    searchNode stBase (SearchResult.resolved [spA, spB]) FetchResult.rejected
      = (handleNodeClick stBase 0,
         [Effect.fetchSearch stBase.searchTerm, Effect.centerCamera 0]) := by
  have h := searchNode_first_result_only stBase (by decide) spA spB [] FetchResult.rejected
  exact h.2.1 0 (by decide)

/-- Claim C4, counterexample.  On a valid graph whose single link is a
self-loop at the selected node, `highlightNode` leaves the selected node at
opacity 0.8 (the "other endpoint" write runs after the selected-node write
and overwrites it), while the claim demands opacity 1 for the selected node
of every graph. -/
theorem highlightNode_self_loop_counterexample :
    ((highlightNode gSelf 0).nodes.getD 0 dNode).opacity = mkRat 8 10
    ∧ ¬ ((highlightNode gSelf 0).nodes.getD 0 dNode).opacity = 1
    ∧ (gSelf.links.getD 0 dLink).source = 0
    ∧ (gSelf.links.getD 0 dLink).target = 0
    ∧ 0 < gSelf.nodes.length := by
  decide

/-- Claim C4 (corrected).  For every well-formed graph and selected node
without a self-loop: the selected node gets opacity 1 and is highlighted;
every link touching the selection by identity gets opacity 1, highlighted,
and its other endpoint opacity 0.8, highlighted; every other link stays at
opacity 0.1 unhighlighted, and every node that is neither selected nor an
endpoint of a touching link stays at opacity 0.2 unhighlighted — the
highlight is single-hop, not transitive. -/
theorem highlightNode_spec (g : GraphData) (sel : Nat)
    (hsel : sel < g.nodes.length)
    (hwf : ∀ l ∈ g.links, l.source < g.nodes.length ∧ l.target < g.nodes.length)
    (hns : ∀ l ∈ g.links, ¬(l.source = sel ∧ l.target = sel)) :
    (((highlightNode g sel).nodes.getD sel dNode).opacity = 1
      ∧ ((highlightNode g sel).nodes.getD sel dNode).highlighted = true)
    ∧ (∀ j, j < g.links.length →
        ((g.links.getD j dLink).source = sel ∨ (g.links.getD j dLink).target = sel) →
        ((highlightNode g sel).links.getD j dLink).opacity = 1
        ∧ ((highlightNode g sel).links.getD j dLink).highlighted = true
        ∧ ((highlightNode g sel).nodes.getD
            (otherEnd sel (g.links.getD j dLink)) dNode).opacity = mkRat 8 10
        ∧ ((highlightNode g sel).nodes.getD
            (otherEnd sel (g.links.getD j dLink)) dNode).highlighted = true)
    ∧ (∀ j, j < g.links.length →
        ¬((g.links.getD j dLink).source = sel ∨ (g.links.getD j dLink).target = sel) →
        ((highlightNode g sel).links.getD j dLink).opacity = mkRat 1 10
        ∧ ((highlightNode g sel).links.getD j dLink).highlighted = false)
    ∧ (∀ i, i < g.nodes.length → i ≠ sel →
        (¬ ∃ l ∈ g.links, (l.source = sel ∨ l.target = sel) ∧ otherEnd sel l = i) →
        ((highlightNode g sel).nodes.getD i dNode).opacity = mkRat 2 10
        ∧ ((highlightNode g sel).nodes.getD i dNode).highlighted = false) := by
  have hlen2 : (modifyAt (g.nodes.map resetN) sel selUpd).length = g.nodes.length := by
    rw [length_modifyAt, List.length_map]
  have key_nodes : ∀ i, i < g.nodes.length →
      (highlightNode g sel).nodes.getD i dNode =
        if ∃ l ∈ g.links, (l.source = sel ∨ l.target = sel) ∧ otherEnd sel l = i
        then nbrUpd ((modifyAt (g.nodes.map resetN) sel selUpd).getD i dNode)
        else (modifyAt (g.nodes.map resetN) sel selUpd).getD i dNode := by
    intro i hi
    have h1 := hlFold_fst_getD sel (g.links.map resetL)
        (modifyAt (g.nodes.map resetN) sel selUpd) [] i (by rw [hlen2]; exact hi)
    have hiff : (∃ l ∈ g.links.map resetL,
          (l.source = sel ∨ l.target = sel) ∧ otherEnd sel l = i)
        ↔ (∃ l ∈ g.links, (l.source = sel ∨ l.target = sel) ∧ otherEnd sel l = i) := by
      constructor
      · rintro ⟨l, hm, hx⟩
        obtain ⟨l0, hm0, rfl⟩ := List.mem_map.mp hm
        exact ⟨l0, hm0, hx⟩
      · rintro ⟨l0, hm0, hx⟩
        exact ⟨resetL l0, List.mem_map_of_mem resetL hm0, hx⟩
    rw [if_congr hiff rfl rfl] at h1
    exact h1
  have key_links : ∀ j, j < g.links.length →
      (highlightNode g sel).links.getD j dLink =
        (if (g.links.getD j dLink).source = sel ∨ (g.links.getD j dLink).target = sel
         then linkOn (resetL (g.links.getD j dLink))
         else resetL (g.links.getD j dLink)) := by
    intro j hj
    have h2 := hlFold_snd sel (g.links.map resetL)
        (modifyAt (g.nodes.map resetN) sel selUpd) []
    have h3 : (highlightNode g sel).links
        = (g.links.map resetL).map
            (fun l => if l.source = sel ∨ l.target = sel then linkOn l else l) := by
      rw [show (highlightNode g sel).links
            = ((g.links.map resetL).foldl (hlStep sel)
                (modifyAt (g.nodes.map resetN) sel selUpd, [])).2 from rfl,
          h2, List.nil_append]
    rw [h3]
    rw [getD_map_of_lt (fun l => if l.source = sel ∨ l.target = sel then linkOn l else l)
          (g.links.map resetL) j dLink dLink (by rw [List.length_map]; exact hj)]
    rw [getD_map_of_lt resetL g.links j dLink dLink hj]
    rfl
  refine ⟨?_, ?_, ?_, ?_⟩
  · -- the selected node
    have hconds : ¬ ∃ l ∈ g.links,
        (l.source = sel ∨ l.target = sel) ∧ otherEnd sel l = sel := by
      rintro ⟨l, hm, htouch, hoe⟩
      rcases htouch with hs | ht
      · rw [otherEnd, if_pos hs] at hoe
        exact hns l hm ⟨hs, hoe⟩
      · by_cases hs : l.source = sel
        · exact hns l hm ⟨hs, ht⟩
        · rw [otherEnd, if_neg hs] at hoe
          exact hs hoe
    have h4 := key_nodes sel hsel
    rw [if_neg hconds] at h4
    have h5 : (modifyAt (g.nodes.map resetN) sel selUpd).getD sel dNode
        = selUpd ((g.nodes.map resetN).getD sel dNode) :=
      getD_modifyAt_self _ sel selUpd dNode (by rw [List.length_map]; exact hsel)
    rw [h5] at h4
    exact ⟨by rw [h4]; rfl, by rw [h4]; rfl⟩
  · -- links touching the selection and their other endpoints
    intro j hj htouch
    have hlj := getD_mem g.links j dLink hj
    have hl := key_links j hj
    rw [if_pos htouch] at hl
    have hoelen : otherEnd sel (g.links.getD j dLink) < g.nodes.length := by
      by_cases hs : (g.links.getD j dLink).source = sel
      · rw [otherEnd, if_pos hs]
        exact (hwf _ hlj).2
      · rw [otherEnd, if_neg hs]
        exact (hwf _ hlj).1
    have h6 := key_nodes (otherEnd sel (g.links.getD j dLink)) hoelen
    have hex : ∃ l ∈ g.links, (l.source = sel ∨ l.target = sel)
        ∧ otherEnd sel l = otherEnd sel (g.links.getD j dLink) :=
      ⟨g.links.getD j dLink, hlj, htouch, rfl⟩
    rw [if_pos hex] at h6
    exact ⟨by rw [hl]; rfl, by rw [hl]; rfl, by rw [h6]; rfl, by rw [h6]; rfl⟩
  · -- links not touching the selection
    intro j hj hnt
    have hl := key_links j hj
    rw [if_neg hnt] at hl
    exact ⟨by rw [hl]; rfl, by rw [hl]; rfl⟩
  · -- nodes neither selected nor adjacent
    intro i hi hne hnnbr
    have h7 := key_nodes i hi
    rw [if_neg hnnbr] at h7
    have h8 : (modifyAt (g.nodes.map resetN) sel selUpd).getD i dNode
        = (g.nodes.map resetN).getD i dNode :=
      getD_modifyAt_ne _ sel i selUpd dNode hne
    rw [h8] at h7
    have h9 : (g.nodes.map resetN).getD i dNode = resetN (g.nodes.getD i dNode) :=
      getD_map_of_lt resetN g.nodes i dNode dNode hi
    rw [h9] at h7
    exact ⟨by rw [h7]; rfl, by rw [h7]; rfl⟩

/-- Witness: in `gW` with `SP_A` (index 0) selected, the selected node is
at opacity 1, its neighbour `SP_B` at 0.8, the isolated `SP_D` at 0.2, the
touching link at 1 and the `SP_B → T_ORDER` link at 0.1. -/
theorem highlightNode_spec_witness :
    ((highlightNode gW 0).nodes.getD 0 dNode).opacity = 1
    ∧ ((highlightNode gW 0).nodes.getD
        (otherEnd 0 (gW.links.getD 0 dLink)) dNode).opacity = mkRat 8 10
    ∧ ((highlightNode gW 0).nodes.getD 3 dNode).opacity = mkRat 2 10
    ∧ ((highlightNode gW 0).links.getD 0 dLink).opacity = 1
    ∧ ((highlightNode gW 0).links.getD 2 dLink).opacity = mkRat 1 10 := by
  have h := highlightNode_spec gW 0 (by decide) (by decide) (by decide)
  exact ⟨h.1.1,
         (h.2.1 0 (by decide) (Or.inl (by decide))).2.2.1,
         (h.2.2.2 3 (by decide) (by decide) (by decide)).1,
         (h.2.1 0 (by decide) (Or.inl (by decide))).1,
         (h.2.2.1 2 (by decide) (by decide)).1⟩
